import Mathlib

/-!
Verification of the story-generator core logic (`rohak.py`): the prompt
builder `create_story_prompt`, the response sanitizer `clean_response`, and
the wrapper `generate_story`.  Text is modelled as `List Char` (Python
strings are sequences of code points).  The regex substitutions of
`clean_response` are embedded as the equivalent deterministic string
transformations; case handling (`re.IGNORECASE`, `str.lower`) and character
classes (`\d`, `\s`, `str.strip`) are modelled at ASCII granularity, which
covers every character class the program's fixed patterns mention.  The
float comparison `len(unique) < len(sentences) * 0.7` is modelled as the
exact rational comparison `10 * unique < 7 * total`; the two agree for every
sentence count below 2^49, far beyond any feasible input.
-/

/-- The apostrophe character, used by the preamble pattern of
`clean_response`. -/
def apos : Char := '\''

/-- Python whitespace (`str.strip`, regex `\s`), at ASCII granularity:
space, tab, newline, carriage return, vertical tab, form feed. -/
def pyIsSpace (c : Char) : Bool :=
  c == ' ' || c == '\t' || c == '\n' || c == '\r' || c == '\x0b' || c == '\x0c'

/-- Case-insensitive prefix test (`re.IGNORECASE` on a literal pattern),
comparing ASCII-lowercased characters. -/
def ciIsPrefixOf : List Char → List Char → Bool
  | [], _ => true
  | _ :: _, [] => false
  | p :: ps, c :: cs => (p.toLower == c.toLower) && ciIsPrefixOf ps cs

/-- Index of the first case-insensitive occurrence of `pat` in a text. -/
def findCI (pat : List Char) : List Char → Option Nat
  | [] => if ciIsPrefixOf pat [] then some 0 else none
  | c :: rest =>
    if ciIsPrefixOf pat (c :: rest) then some 0
    else (findCI pat (rest : List Char)).map (fun k => k + 1)

/-- First alternative of `(Here's|Here is|This is)`. -/
def heresPat : List Char := ['H', 'e', 'r', 'e', apos, 's']

/-- Second alternative of `(Here's|Here is|This is)`. -/
def hereIsPat : List Char := ['H', 'e', 'r', 'e', ' ', 'i', 's']

/-- Third alternative of `(Here's|Here is|This is)`. -/
def thisIsPat : List Char := ['T', 'h', 'i', 's', ' ', 'i', 's']

/-- The literal `story` from the first preamble pattern. -/
def storyPat : List Char := ['s', 't', 'o', 'r', 'y']

/-- The literal `Story:` of the second preamble pattern. -/
def storyColonPat : List Char := ['S', 't', 'o', 'r', 'y', ':']

/-- Which alternative of `(Here's|Here is|This is)` matches at the start of
the first line, and its length.  The regex engine tries the alternatives
left to right; they are pairwise incompatible as prefixes (they differ
within their common length), so the first match is the only one. -/
def altLen (fl : List Char) : Option Nat :=
  if ciIsPrefixOf heresPat fl then some 6
  else if ciIsPrefixOf hereIsPat fl then some 7
  else if ciIsPrefixOf thisIsPat fl then some 7
  else none

/-- `re.sub(r'^(Here\x27s|Here is|This is).*?story.*?:', '', text, flags=IGNORECASE)`.
The pattern is anchored at the start of the string and `.` does not cross a
newline, so the whole match lies in the first line: an alternative must
match at position 0, then the lazy `.*?story` finds the first occurrence of
`story` on that line, then the lazy `.*?:` finds the first `:` after it.
(Backtracking to a later `story` occurrence can never succeed when the
first fails, since any colon after the later occurrence also lies after the
first.)  On a match the matched prefix is deleted. -/
def stripPreamble1 (text : List Char) : List Char :=
  match altLen (text.takeWhile (fun c => c ≠ '\n')) with
  | none => text
  | some n =>
    match findCI storyPat ((text.takeWhile (fun c => c ≠ '\n')).drop n) with
    | none => text
    | some i =>
      match List.findIdx? (fun c => c = ':')
          (((text.takeWhile (fun c => c ≠ '\n')).drop n).drop (i + 5)) with
      | none => text
      | some j => text.drop (n + i + 5 + j + 1)

/-- `re.sub(r'^Story:', '', text, flags=IGNORECASE)`: anchored at position 0,
so at most one deletion of the 6-character prefix. -/
def stripPreamble2 (text : List Char) : List Char :=
  if ciIsPrefixOf storyColonPat text then text.drop 6 else text

/-- A line matching `^\d+\..*?\n` up to its terminator: it starts with one
or more digits immediately followed by a dot (by backtracking, only the
maximal digit run can be followed by the literal dot). -/
def isNumberedLine (l : List Char) : Bool :=
  match l with
  | [] => false
  | c :: _ => c.isDigit && ((l.dropWhile (fun d => d.isDigit)).head? == some '.')

/-- A line matching `^\*.*?\n` up to its terminator: it starts with `*`. -/
def isBulletLine (l : List Char) : Bool :=
  l.head? == some '*'

/-- Worker for `removeLines`: `cur` holds the reversed current line.  A
newline-terminated line satisfying `p` is dropped together with its
newline; the final, unterminated line is always kept (the `MULTILINE`
patterns require the trailing `\n`). -/
def removeLinesAux (p : List Char → Bool) (cur : List Char) : List Char → List Char
  | [] => cur.reverse
  | c :: rest =>
    if c = '\n' then
      (if p cur.reverse then [] else cur.reverse ++ ['\n']) ++ removeLinesAux p [] rest
    else removeLinesAux p (c :: cur) rest

/-- `re.sub(pattern, '', text, flags=MULTILINE)` for the line-anchored
patterns above: every newline-terminated line satisfying `p` is removed. -/
def removeLines (p : List Char → Bool) (text : List Char) : List Char :=
  removeLinesAux p [] text

/-- Worker for `re.sub(r'\n{3,}', '\n\n', text)`: `run` counts the pending
newline run; a maximal run of `k` newlines is emitted as `min k 2`
newlines (greedy matching rewrites every run of three or more to two). -/
def collapseNlAux : Nat → List Char → List Char
  | run, [] => List.replicate (min run 2) '\n'
  | run, c :: rest =>
    if c = '\n' then collapseNlAux (run + 1) rest
    else List.replicate (min run 2) '\n' ++ c :: collapseNlAux 0 rest

/-- `re.sub(r'\n{3,}', '\n\n', text)`. -/
def collapseNewlines (text : List Char) : List Char :=
  collapseNlAux 0 text

/-- Python `str.strip()`: drop whitespace from both ends. -/
def pyStrip (l : List Char) : List Char :=
  List.rdropWhile pyIsSpace (l.dropWhile pyIsSpace)

/-- Worker for `str.split('.')`, with `cur` the reversed current segment. -/
def splitOnDotAux (cur : List Char) : List Char → List (List Char)
  | [] => [cur.reverse]
  | c :: rest =>
    if c = '.' then cur.reverse :: splitOnDotAux [] rest
    else splitOnDotAux (c :: cur) rest

/-- Python `text.split('.')`: all segments between dots, including empty
ones (`n` dots yield `n + 1` segments). -/
def splitOnDot (text : List Char) : List (List Char) :=
  splitOnDotAux [] text

/-- `s.strip().lower()` applied to one sentence. -/
def normalizeSentence (s : List Char) : List Char :=
  (pyStrip s).map Char.toLower

/-- `len(set(s.strip().lower() for s in sentences if s.strip()))`: the
number of distinct normalized sentences among those that are non-blank. -/
def uniqueCount (ss : List (List Char)) : Nat :=
  (((ss.filter (fun s => !(pyStrip s).isEmpty)).map normalizeSentence).dedup).length

/-- The cleanup pipeline of `clean_response` (its five `re.sub`/`strip`
steps, in source order). -/
def cleanPipeline (text : List Char) : List Char :=
  pyStrip (collapseNewlines (removeLines isBulletLine
    (removeLines isNumberedLine (stripPreamble2 (stripPreamble1 text)))))

/-- The four-way outcome of `clean_response`: the three early returns and
the final cleaned text. -/
inductive CleanOutcome where
  | errEmpty
  | errTooShort
  | errRepetitive
  | ok (text : List Char)
deriving DecidableEq, Repr

/-- `clean_response`, by outcome: the emptiness (truthiness) check on the
raw input, the cleanup pipeline, the 100-character check, and the
repetition check on the dot-split sentences. -/
def clean_response_outcome (text : List Char) : CleanOutcome :=
  if text.isEmpty then .errEmpty
  else if (cleanPipeline text).length < 100 then .errTooShort
  else if 10 < (splitOnDot (cleanPipeline text)).length then
    if uniqueCount (splitOnDot (cleanPipeline text)) * 10 <
        (splitOnDot (cleanPipeline text)).length * 7 then .errRepetitive
    else .ok (cleanPipeline text)
  else .ok (cleanPipeline text)

/-- The strings `clean_response` actually returns for each outcome. -/
def renderOutcome : CleanOutcome → List Char
  | .errEmpty => "Error: Empty response from AI".data
  | .errTooShort => "Error: Story too short. Please try again.".data
  | .errRepetitive => "Error: Detected repetitive content. Please regenerate.".data
  | .ok t => t

/-- `clean_response` as the string-valued function of the source. -/
def clean_response (text : List Char) : List Char :=
  renderOutcome (clean_response_outcome text)

/-- `clean_response` on an optional text: Python `if not text` treats an
absent (`None`) argument like the empty string. -/
def clean_response_opt : Option (List Char) → CleanOutcome
  | none => .errEmpty
  | some l => clean_response_outcome l

/-- The `word_counts` table of `create_story_prompt`. -/
def word_counts : List (List Char × List Char) :=
  [("short".data, "400-600 words".data),
   ("medium".data, "700-900 words".data),
   ("long".data, "1000-1300 words".data)]

/-- The `style_instructions` table of `create_story_prompt`. -/
def style_instructions : List (List Char × List Char) :=
  [("adventurous".data, "filled with action, excitement, danger, and thrilling moments".data),
   ("mysterious".data, "with suspense, intrigue, hidden secrets, and unexpected revelations".data),
   ("romantic".data, "focusing on love, relationships, emotional connections, and heartfelt moments".data),
   ("sci-fi".data, "with futuristic technology, space travel, scientific concepts, and advanced civilizations".data),
   ("fantasy".data, "with magic, mythical creatures, enchanted worlds, and supernatural elements".data),
   ("horror".data, "with scary, frightening, suspenseful, and spine-chilling elements".data),
   ("comedy".data, "humorous, funny, witty, and entertaining with comedic situations".data),
   ("drama".data, "emotionally intense with realistic characters, conflicts, and human struggles".data)]

/-- `style_instructions.get(style, 'engaging')`. -/
def styleDescriptor (style : List Char) : List Char :=
  (List.lookup style style_instructions).getD "engaging".data

/-- `word_counts.get(length, '500 words')`. -/
def lengthHint (length : List Char) : List Char :=
  (List.lookup length word_counts).getD "500 words".data

/-- Template text before the premise interpolation. -/
def promptSegA : List Char :=
  "You are a professional storyteller. Write a complete, engaging story based on this premise: ".data

/-- Template text between the premise and the style interpolation. -/
def promptSegB : List Char :=
  "\n\nSTORY REQUIREMENTS:\n- Style: ".data

/-- Template text between the style and its descriptor. -/
def promptSegC : List Char := " (".data

/-- Template text between the descriptor and the length hint. -/
def promptSegD : List Char := ")\n- Length: ".data

/-- Template text after the length hint. -/
def promptSegE : List Char :=
  ("\n- Format: Complete narrative story\n- Structure: Clear beginning, middle, and end\n- Characters: Well-developed with distinct personalities\n- Setting: Vivid and immersive descriptions\n- Plot: Compelling with conflict and resolution\n\nCRITICAL INSTRUCTIONS:\n- Write ONLY the story content\n- Do NOT include meta-commentary, explanations, or analysis\n- Do NOT use numbered lists or bullet points\n- Do NOT break the story into sections or chapters\n- Create a flowing, continuous narrative\n- Start the story immediately with action or dialogue\n- End with a satisfying conclusion\n\nBegin writing the story now:").data

/-- `create_story_prompt`: the f-string template with the premise, style,
descriptor and word-count hint interpolated. -/
def create_story_prompt (premise style length : List Char) : List Char :=
  promptSegA ++ premise ++ promptSegB ++ style ++ promptSegC ++
    styleDescriptor style ++ promptSegD ++ lengthHint length ++ promptSegE

/-- What the external backend call `client.models.generate_content` does on
a given prompt: either it raises an exception with some message, or it
yields a response whose `.text` is usable (non-`None`; `some t`) or not
(`none`, the falsy case). -/
inductive BackendResult where
  | raised (msg : List Char)
  | response (text : Option (List Char))

/-- `generate_story`: builds the prompt, invokes the backend, and converts
every failure to a plain string.  `create_story_prompt` itself cannot
raise, so the `except` branch fires exactly when the backend raises; the
`if response and response.text` truthiness check sends an absent or empty
text to the no-response message. -/
def generate_story (backend : List Char → BackendResult)
    (premise style length : List Char) : List Char :=
  match backend (create_story_prompt premise style length) with
  | .raised msg => "Error generating story: ".data ++ msg
  | .response none => "Error: No response from AI. Please try again.".data
  | .response (some t) =>
    if t.isEmpty then "Error: No response from AI. Please try again.".data
    else clean_response t

/-- Modelled from the spec: the secondary application variant (the
local-inference app, whose source file is not in the repository snapshot)
applies a capitalization-repair transform — for each occurrence of `.`
followed by optional whitespace and a lowercase letter, exactly that letter
is uppercased.  `afterDot` records whether the scan is inside such a
dot-plus-whitespace context. -/
def capAfterDotAux : Bool → List Char → List Char
  | _, [] => []
  | afterDot, c :: rest =>
    if c = '.' then '.' :: capAfterDotAux true rest
    else if afterDot && pyIsSpace c then c :: capAfterDotAux true rest
    else if afterDot && c.isLower then c.toUpper :: capAfterDotAux false rest
    else c :: capAfterDotAux false rest

/-- Modelled from the spec: the capitalization-repair pass of the secondary
variant, starting outside any dot context (so the first letter of the
string is never the target). -/
def capitalizeAfterPeriod (l : List Char) : List Char :=
  capAfterDotAux false l

set_option maxRecDepth 40000

/-! ### Helper lemmas about the pipeline steps -/

/-- Whether a text contains three consecutive newline characters. -/
def hasTripleNl : List Char → Bool
  | a :: b :: c :: rest =>
    (a == '\n' && b == '\n' && c == '\n') || hasTripleNl (b :: c :: rest)
  | _ => false

theorem hasTripleNl_cons3 (a b c : Char) (rest : List Char) :
    hasTripleNl (a :: b :: c :: rest) =
      ((a == '\n' && b == '\n' && c == '\n') || hasTripleNl (b :: c :: rest)) := rfl

theorem hasTripleNl_cons_of_true (c : Char) (t : List Char) (h : hasTripleNl t = true) :
    hasTripleNl (c :: t) = true := by
  match t with
  | [] => simp [hasTripleNl] at h
  | [b] => simp [hasTripleNl] at h
  | b :: d :: r => rw [hasTripleNl_cons3, h]; simp

theorem hasTripleNl_cons_false (c : Char) (t : List Char)
    (hc : c ≠ '\n') (h : hasTripleNl t = false) : hasTripleNl (c :: t) = false := by
  match t with
  | [] => rfl
  | [b] => rfl
  | b :: d :: r =>
    rw [hasTripleNl_cons3, h]
    simp [hc]

theorem hasTripleNl_nl_cons_false (c : Char) (t : List Char)
    (hc : c ≠ '\n') (h : hasTripleNl (c :: t) = false) :
    hasTripleNl ('\n' :: c :: t) = false := by
  match t with
  | [] => rfl
  | d :: r =>
    rw [hasTripleNl_cons3, h]
    simp [hc]

theorem hasTripleNl_nl_nl_cons_false (c : Char) (t : List Char)
    (hc : c ≠ '\n') (h : hasTripleNl (c :: t) = false) :
    hasTripleNl ('\n' :: '\n' :: c :: t) = false := by
  rw [hasTripleNl_cons3, hasTripleNl_nl_cons_false c t hc h]
  simp [hc]

theorem hasTripleNl_append_right (x y : List Char) (h : hasTripleNl y = true) :
    hasTripleNl (x ++ y) = true := by
  induction x with
  | nil => simpa using h
  | cons a xs ih => exact hasTripleNl_cons_of_true a (xs ++ y) ih

theorem hasTripleNl_append_left : ∀ (x y : List Char), hasTripleNl x = true →
    hasTripleNl (x ++ y) = true
  | [], _, h => by simp [hasTripleNl] at h
  | [a], _, h => by simp [hasTripleNl] at h
  | [a, b], _, h => by simp [hasTripleNl] at h
  | a :: b :: c :: r, y, h => by
    rw [hasTripleNl_cons3] at h
    rcases Bool.or_eq_true_iff.mp h with h1 | h2
    · show hasTripleNl (a :: b :: c :: (r ++ y)) = true
      rw [hasTripleNl_cons3, h1]
      simp
    · show hasTripleNl (a :: b :: c :: (r ++ y)) = true
      rw [hasTripleNl_cons3]
      have := hasTripleNl_append_left (b :: c :: r) y h2
      rw [List.cons_append, List.cons_append] at this
      rw [this]
      simp

theorem hasTripleNl_replicate_ge3 (k : Nat) (x : List Char) (h : 3 ≤ k) :
    hasTripleNl (List.replicate k '\n' ++ x) = true := by
  obtain ⟨m, rfl⟩ : ∃ m, k = m + 3 := ⟨k - 3, by omega⟩
  rw [show m + 3 = (m + 2) + 1 from rfl, List.replicate_succ,
    show m + 2 = (m + 1) + 1 from rfl, List.replicate_succ, List.replicate_succ]
  rw [List.cons_append, List.cons_append, List.cons_append, hasTripleNl_cons3]
  simp

theorem collapseNlAux_noTriple : ∀ (l : List Char) (run : Nat),
    hasTripleNl (collapseNlAux run l) = false
  | [], run => by
    show hasTripleNl (List.replicate (min run 2) '\n') = false
    have h : min run 2 = 0 ∨ min run 2 = 1 ∨ min run 2 = 2 := by omega
    rcases h with h | h | h <;> rw [h] <;> rfl
  | c :: rest, run => by
    by_cases hc : c = '\n'
    · rw [show collapseNlAux run (c :: rest) = collapseNlAux (run + 1) rest by
        simp [collapseNlAux, hc]]
      exact collapseNlAux_noTriple rest (run + 1)
    · rw [show collapseNlAux run (c :: rest) =
        List.replicate (min run 2) '\n' ++ c :: collapseNlAux 0 rest by
        simp [collapseNlAux, hc]]
      have hrec := collapseNlAux_noTriple rest 0
      have hcons := hasTripleNl_cons_false c _ hc hrec
      have h : min run 2 = 0 ∨ min run 2 = 1 ∨ min run 2 = 2 := by omega
      rcases h with h | h | h <;> rw [h]
      · simpa using hcons
      · simpa using hasTripleNl_nl_cons_false c _ hc hcons
      · simpa using hasTripleNl_nl_nl_cons_false c _ hc hcons

theorem collapseNlAux_eq_of_noTriple : ∀ (l : List Char) (run : Nat),
    hasTripleNl (List.replicate run '\n' ++ l) = false →
    collapseNlAux run l = List.replicate run '\n' ++ l
  | [], run => by
    intro h
    have hr : run ≤ 2 := by
      by_contra hgt
      rw [hasTripleNl_replicate_ge3 run [] (by omega)] at h
      exact Bool.noConfusion h
    show List.replicate (min run 2) '\n' = _
    rw [Nat.min_eq_left hr]
    simp
  | c :: rest, run => by
    intro h
    by_cases hc : c = '\n'
    · subst hc
      have hsh : List.replicate run '\n' ++ '\n' :: rest =
          List.replicate (run + 1) '\n' ++ rest := by
        rw [List.replicate_succ']
        simp
      rw [show collapseNlAux run ('\n' :: rest) = collapseNlAux (run + 1) rest by
        simp [collapseNlAux]]
      rw [hsh] at h ⊢
      exact collapseNlAux_eq_of_noTriple rest (run + 1) h
    · have hr : run ≤ 2 := by
        by_contra hgt
        rw [hasTripleNl_replicate_ge3 run (c :: rest) (by omega)] at h
        exact Bool.noConfusion h
      have hrest : hasTripleNl rest = false := by
        by_contra hh
        rw [Bool.not_eq_false] at hh
        have := hasTripleNl_append_right (List.replicate run '\n' ++ [c]) rest hh
        rw [List.append_assoc] at this
        simp only [List.singleton_append] at this
        rw [this] at h
        exact Bool.noConfusion h
      rw [show collapseNlAux run (c :: rest) =
        List.replicate (min run 2) '\n' ++ c :: collapseNlAux 0 rest by
        simp [collapseNlAux, hc]]
      rw [Nat.min_eq_left hr, collapseNlAux_eq_of_noTriple rest 0 (by simpa using hrest)]
      simp

theorem collapseNewlines_noTriple (l : List Char) :
    hasTripleNl (collapseNewlines l) = false :=
  collapseNlAux_noTriple l 0

theorem collapseNewlines_eq_of_noTriple (l : List Char) (h : hasTripleNl l = false) :
    collapseNewlines l = l := by
  simpa using collapseNlAux_eq_of_noTriple l 0 (by simpa using h)

theorem head_dropWhile_false (p : Char → Bool) :
    ∀ (l : List Char) (c : Char), (l.dropWhile p).head? = some c → p c = false
  | [], c, h => by simp [List.dropWhile] at h
  | a :: t, c, h => by
    by_cases ha : p a
    · rw [List.dropWhile_cons_of_pos ha] at h
      exact head_dropWhile_false p t c h
    · rw [List.dropWhile_cons_of_neg ha] at h
      simp at h
      rw [← h]
      exact Bool.not_eq_true _ ▸ (by simpa using ha)

theorem pyStrip_head (l : List Char) (c : Char) (h : (pyStrip l).head? = some c) :
    pyIsSpace c = false := by
  rcases List.rdropWhile_prefix pyIsSpace (l.dropWhile pyIsSpace) with ⟨v, hv⟩
  rw [pyStrip] at h
  cases hrd : List.rdropWhile pyIsSpace (l.dropWhile pyIsSpace) with
  | nil => rw [hrd] at h; simp at h
  | cons a s =>
    rw [hrd] at h hv
    simp only [List.head?] at h
    have hhead : (l.dropWhile pyIsSpace).head? = some a := by
      rw [← hv]; rfl
    have := head_dropWhile_false pyIsSpace l a hhead
    rwa [← (Option.some.injEq _ _).mp h]

theorem pyStrip_getLast (l : List Char) (c : Char) (h : (pyStrip l).getLast? = some c) :
    pyIsSpace c = false := by
  rw [pyStrip, List.rdropWhile] at h
  rw [List.getLast?_reverse] at h
  exact head_dropWhile_false pyIsSpace _ c h

theorem dropWhile_pyStrip_fix (l : List Char) :
    (List.rdropWhile pyIsSpace (l.dropWhile pyIsSpace)).dropWhile pyIsSpace =
      List.rdropWhile pyIsSpace (l.dropWhile pyIsSpace) := by
  rcases List.rdropWhile_prefix pyIsSpace (l.dropWhile pyIsSpace) with ⟨v, hv⟩
  cases hrd : List.rdropWhile pyIsSpace (l.dropWhile pyIsSpace) with
  | nil => rfl
  | cons a s =>
    rw [hrd] at hv
    have hhead : (l.dropWhile pyIsSpace).head? = some a := by
      rw [← hv]; rfl
    have ha := head_dropWhile_false pyIsSpace l a hhead
    rw [List.dropWhile_cons_of_neg (by simp [ha])]

theorem pyStrip_idem (l : List Char) : pyStrip (pyStrip l) = pyStrip l := by
  show List.rdropWhile pyIsSpace ((pyStrip l).dropWhile pyIsSpace) = pyStrip l
  rw [pyStrip, dropWhile_pyStrip_fix, List.rdropWhile_idempotent]

theorem pyStrip_noTriple (l : List Char) (h : hasTripleNl l = false) :
    hasTripleNl (pyStrip l) = false := by
  have h1 : hasTripleNl (l.dropWhile pyIsSpace) = false := by
    by_contra hh
    rw [Bool.not_eq_false] at hh
    rcases List.dropWhile_suffix (l := l) pyIsSpace with ⟨u, hu⟩
    rw [← hu, hasTripleNl_append_right u _ hh] at h
    exact Bool.noConfusion h
  by_contra hh
  rw [Bool.not_eq_false] at hh
  rcases List.rdropWhile_prefix pyIsSpace (l.dropWhile pyIsSpace) with ⟨v, hv⟩
  rw [pyStrip] at hh
  rw [← hv, hasTripleNl_append_left _ v hh] at h1
  exact Bool.noConfusion h1

theorem cleanOutcome_ok_inv (raw t : List Char) (h : clean_response_outcome raw = .ok t) :
    t = cleanPipeline raw ∧ raw.isEmpty = false ∧ ¬ (cleanPipeline raw).length < 100 ∧
    (10 < (splitOnDot (cleanPipeline raw)).length →
      ¬ uniqueCount (splitOnDot (cleanPipeline raw)) * 10 <
        (splitOnDot (cleanPipeline raw)).length * 7) := by
  unfold clean_response_outcome at h
  by_cases h0 : raw.isEmpty = true
  · rw [if_pos h0] at h; exact absurd h (by simp)
  · rw [if_neg h0] at h
    by_cases hlen : (cleanPipeline raw).length < 100
    · rw [if_pos hlen] at h; exact absurd h (by simp)
    · rw [if_neg hlen] at h
      by_cases hn : 10 < (splitOnDot (cleanPipeline raw)).length
      · rw [if_pos hn] at h
        by_cases hu : uniqueCount (splitOnDot (cleanPipeline raw)) * 10 <
            (splitOnDot (cleanPipeline raw)).length * 7
        · rw [if_pos hu] at h; exact absurd h (by simp)
        · rw [if_neg hu] at h
          injection h with h'
          exact ⟨h'.symm, by simpa using h0, hlen, fun _ => hu⟩
      · rw [if_neg hn] at h
        injection h with h'
        exact ⟨h'.symm, by simpa using h0, hlen, fun hc => absurd hc hn⟩

theorem cleanOutcome_ok_intro (raw : List Char) (h0 : raw.isEmpty = false)
    (hlen : ¬ (cleanPipeline raw).length < 100)
    (hrep : 10 < (splitOnDot (cleanPipeline raw)).length →
      ¬ uniqueCount (splitOnDot (cleanPipeline raw)) * 10 <
        (splitOnDot (cleanPipeline raw)).length * 7) :
    clean_response_outcome raw = .ok (cleanPipeline raw) := by
  unfold clean_response_outcome
  rw [if_neg (by simp [h0]), if_neg hlen]
  by_cases hn : 10 < (splitOnDot (cleanPipeline raw)).length
  · rw [if_pos hn, if_neg (hrep hn)]
  · rw [if_neg hn]

theorem filterLenSplit {α : Type} (p : α → Bool) : ∀ (l : List α),
    (l.filter p).length + (l.filter (fun x => !(p x))).length = l.length
  | [] => rfl
  | a :: t => by
    by_cases ha : p a
    · rw [List.filter_cons_of_pos ha, List.filter_cons_of_neg (by simp [ha])]
      have := filterLenSplit p t
      simp only [List.length_cons, List.length]
      omega
    · rw [List.filter_cons_of_neg ha, List.filter_cons_of_pos (by simp [ha])]
      have := filterLenSplit p t
      simp only [List.length_cons, List.length]
      omega

theorem nodup_const_len_le_one {α : Type} : ∀ (l : List α) (a : α),
    (∀ x ∈ l, x = a) → l.Nodup → l.length ≤ 1
  | [], _, _, _ => by simp
  | [_], _, _, _ => by simp
  | x :: y :: r, a, h, hn => by
    exfalso
    have hx := h x (List.mem_cons_self x (y :: r))
    have hy := h y (List.mem_cons_of_mem x (List.mem_cons_self y r))
    rw [List.nodup_cons] at hn
    apply hn.1
    rw [show x = y from hx.trans hy.symm]
    exact List.mem_cons_self y r

theorem uniqueCount_ge_of_nodup (s : List (List Char))
    (hnd : (s.map normalizeSentence).Nodup) :
    s.length ≤ uniqueCount s + 1 := by
  have hsplit := filterLenSplit (fun x => !(pyStrip x).isEmpty) s
  have hnd1 : ((s.filter (fun x => !(pyStrip x).isEmpty)).map normalizeSentence).Nodup :=
    List.Nodup.sublist (List.Sublist.map normalizeSentence (List.filter_sublist s)) hnd
  have huc : uniqueCount s = (s.filter (fun x => !(pyStrip x).isEmpty)).length := by
    rw [uniqueCount, List.dedup_eq_self.mpr hnd1, List.length_map]
  have hdropnd : ((s.filter (fun x => !(!(pyStrip x).isEmpty))).map normalizeSentence).Nodup :=
    List.Nodup.sublist (List.Sublist.map normalizeSentence (List.filter_sublist s)) hnd
  have hall : ∀ y ∈ (s.filter (fun x => !(!(pyStrip x).isEmpty))).map normalizeSentence,
      y = ([] : List Char) := by
    intro y hy
    rcases List.mem_map.mp hy with ⟨x, hx, rfl⟩
    have hxp := List.of_mem_filter hx
    have hnil : pyStrip x = [] := by
      rw [← List.isEmpty_iff]
      simpa using hxp
    simp [normalizeSentence, hnil]
  have hlen1 := nodup_const_len_le_one _ ([] : List Char) hall hdropnd
  rw [List.length_map] at hlen1
  omega

theorem space_toLower (c : Char) (h : pyIsSpace c = true) : c.toLower = c := by
  rw [pyIsSpace] at h
  simp only [Bool.or_eq_true, beq_iff_eq] at h
  rcases h with ((((h | h) | h) | h) | h) | h <;> subst h <;> decide

theorem space_not_digit (c : Char) (h : pyIsSpace c = true) : c.isDigit = false := by
  rw [pyIsSpace] at h
  simp only [Bool.or_eq_true, beq_iff_eq] at h
  rcases h with ((((h | h) | h) | h) | h) | h <;> subst h <;> decide

theorem space_ne_star (c : Char) (h : pyIsSpace c = true) : c ≠ '*' := by
  rw [pyIsSpace] at h
  simp only [Bool.or_eq_true, beq_iff_eq] at h
  rcases h with ((((h | h) | h) | h) | h) | h <;> subst h <;> decide

theorem ciIsPrefixOf_false_of_space (p0 : Char) (ps : List Char)
    (hp : pyIsSpace p0.toLower = false) :
    ∀ (x : List Char), (∀ c ∈ x, pyIsSpace c = true) → ciIsPrefixOf (p0 :: ps) x = false
  | [], _ => rfl
  | c :: cs, hx => by
    have hc : pyIsSpace c = true := hx c (List.mem_cons_self c cs)
    have hlow : c.toLower = c := space_toLower c hc
    have hne : (p0.toLower == c.toLower) = false := by
      rw [hlow, beq_eq_false_iff_ne]
      intro he
      rw [he] at hp
      rw [hp] at hc
      exact Bool.noConfusion hc
    show ((p0.toLower == c.toLower) && ciIsPrefixOf ps cs) = false
    rw [hne]
    simp

theorem altLen_none_of_space (x : List Char) (hx : ∀ c ∈ x, pyIsSpace c = true) :
    altLen x = none := by
  have h1 : ciIsPrefixOf heresPat x = false := by
    simp only [heresPat]
    exact ciIsPrefixOf_false_of_space 'H' _ (by decide) x hx
  have h2 : ciIsPrefixOf hereIsPat x = false := by
    simp only [hereIsPat]
    exact ciIsPrefixOf_false_of_space 'H' _ (by decide) x hx
  have h3 : ciIsPrefixOf thisIsPat x = false := by
    simp only [thisIsPat]
    exact ciIsPrefixOf_false_of_space 'T' _ (by decide) x hx
  rw [altLen]
  simp [h1, h2, h3]

theorem stripPreamble1_eq_of_space (l : List Char) (hl : ∀ c ∈ l, pyIsSpace c = true) :
    stripPreamble1 l = l := by
  have hfl : ∀ c ∈ l.takeWhile (fun c => c ≠ '\n'), pyIsSpace c = true :=
    fun c hc => hl c ((List.takeWhile_sublist _).subset hc)
  unfold stripPreamble1
  rw [altLen_none_of_space _ hfl]

theorem stripPreamble2_eq_of_space (l : List Char) (hl : ∀ c ∈ l, pyIsSpace c = true) :
    stripPreamble2 l = l := by
  have h1 : ciIsPrefixOf storyColonPat l = false := by
    simp only [storyColonPat]
    exact ciIsPrefixOf_false_of_space 'S' _ (by decide) l hl
  unfold stripPreamble2
  simp [h1]

theorem removeLinesAux_id_of_space (p : List Char → Bool)
    (hp : ∀ line, (∀ c ∈ line, pyIsSpace c = true) → p line = false) :
    ∀ (l cur : List Char), (∀ c ∈ l, pyIsSpace c = true) →
      (∀ c ∈ cur, pyIsSpace c = true) →
      removeLinesAux p cur l = cur.reverse ++ l
  | [], cur, _, _ => by simp [removeLinesAux]
  | c :: rest, cur, hl, hcur => by
    have hrest : ∀ x ∈ rest, pyIsSpace x = true :=
      fun x hx => hl x (List.mem_cons_of_mem c hx)
    by_cases hc : c = '\n'
    · have hline : ∀ x ∈ cur.reverse, pyIsSpace x = true :=
        fun x hx => hcur x (List.mem_reverse.mp hx)
      rw [removeLinesAux, if_pos hc, hp cur.reverse hline,
        removeLinesAux_id_of_space p hp rest [] hrest (by simp)]
      subst hc
      simp
    · rw [removeLinesAux, if_neg hc,
        removeLinesAux_id_of_space p hp rest (c :: cur) hrest ?hcc]
      case hcc =>
        intro x hx
        rcases List.mem_cons.mp hx with h | h
        · subst h; exact hl x (List.mem_cons_self x rest)
        · exact hcur x h
      simp

theorem isNumberedLine_false_of_space (line : List Char)
    (hline : ∀ c ∈ line, pyIsSpace c = true) : isNumberedLine line = false := by
  cases line with
  | nil => rfl
  | cons c t =>
    have hd := space_not_digit c (hline c (List.mem_cons_self c t))
    simp [isNumberedLine, hd]

theorem isBulletLine_false_of_space (line : List Char)
    (hline : ∀ c ∈ line, pyIsSpace c = true) : isBulletLine line = false := by
  cases line with
  | nil => rfl
  | cons c t =>
    have hs := space_ne_star c (hline c (List.mem_cons_self c t))
    simp [isBulletLine, hs]

theorem collapseNlAux_space : ∀ (l : List Char) (run : Nat),
    (∀ c ∈ l, pyIsSpace c = true) → ∀ c ∈ collapseNlAux run l, pyIsSpace c = true
  | [], run, _ => by
    intro c hc
    have h := List.eq_of_mem_replicate hc
    subst h; decide
  | a :: rest, run, hl => by
    intro c hc
    have hrest : ∀ x ∈ rest, pyIsSpace x = true :=
      fun x hx => hl x (List.mem_cons_of_mem a hx)
    by_cases ha : a = '\n'
    · rw [show collapseNlAux run (a :: rest) = collapseNlAux (run + 1) rest from by
        simp [collapseNlAux, ha]] at hc
      exact collapseNlAux_space rest (run + 1) hrest c hc
    · rw [show collapseNlAux run (a :: rest) =
        List.replicate (min run 2) '\n' ++ a :: collapseNlAux 0 rest from by
        simp [collapseNlAux, ha]] at hc
      rcases List.mem_append.mp hc with h | h
      · have h2 := List.eq_of_mem_replicate h
        subst h2; decide
      · rcases List.mem_cons.mp h with h | h
        · subst h; exact hl c (List.mem_cons_self c rest)
        · exact collapseNlAux_space rest 0 hrest c h

theorem pyStrip_nil_of_space (l : List Char) (hl : ∀ c ∈ l, pyIsSpace c = true) :
    pyStrip l = [] := by
  rw [pyStrip, List.dropWhile_eq_nil_iff.mpr hl]
  simp [List.rdropWhile]

theorem removeLines_id_of_space (p : List Char → Bool)
    (hp : ∀ line, (∀ c ∈ line, pyIsSpace c = true) → p line = false)
    (l : List Char) (hl : ∀ c ∈ l, pyIsSpace c = true) : removeLines p l = l := by
  rw [removeLines, removeLinesAux_id_of_space p hp l [] hl (by simp)]
  simp

theorem lookup_of_mem_nodupKeys : ∀ (l : List (List Char × List Char)),
    (l.map Prod.fst).Nodup → ∀ k v, (k, v) ∈ l → List.lookup k l = some v
  | [], _, k, v, hm => absurd hm (List.not_mem_nil (k, v))
  | (a, b) :: t, hnd, k, v, hm => by
    rw [List.map_cons, List.nodup_cons] at hnd
    rcases List.mem_cons.mp hm with he | ht
    · rw [Prod.mk.injEq] at he
      have hka : (k == a) = true := by simp [he.1]
      rw [List.lookup, hka, he.2]
    · have hka : (k == a) = false := by
        rw [beq_eq_false_iff_ne]
        intro he
        apply hnd.1
        subst he
        exact List.mem_map.mpr ⟨(k, v), ht, rfl⟩
      rw [List.lookup, hka]
      exact lookup_of_mem_nodupKeys t hnd.2 k v ht

/-! ### Claim theorems -/

/-- Claim C4: `clean_response` on an empty or absent input rejects with the
empty-response reason (this truthiness check runs first), and on the
5-character input `short` (whose cleaned form is under 100 characters) it
rejects with the too-short reason. -/
theorem clean_response_empty_short_spec :
    clean_response_outcome [] = .errEmpty
    ∧ clean_response_opt none = .errEmpty
    ∧ clean_response_outcome "short".data = .errTooShort :=
  ⟨rfl, rfl, by decide⟩

/-- The input of the C5 test: `Here's a story: Once upon a time... `
followed by 120 filler characters. -/
def c5input : List Char :=
  heresPat ++ " a story: Once upon a time... ".data ++ List.replicate 120 'x'

/-- The cleaned text `clean_response` returns for `c5input`. -/
def c5output : List Char :=
  "Once upon a time... ".data ++ List.replicate 120 'x'

/-- Claim C5: on `Here's a story: Once upon a time... ` plus 120 filler
characters, `clean_response` strips the leading meta-commentary preamble,
so the returned cleaned text does not start with `Here's a story:`. -/
theorem clean_response_strips_preamble_spec :
    clean_response_outcome c5input = .ok c5output
    ∧ c5output.take 15 ≠ heresPat ++ " a story:".data :=
  ⟨by decide, by decide⟩

/-- Claim C8: `create_story_prompt` is deterministic — equal premise, style
and length inputs give identical prompt strings — and it totally returns a
(nonempty) string for any inputs, with no error outcome. -/
theorem create_story_prompt_deterministic_spec (p s l p2 s2 l2 : List Char)
    (hp : p = p2) (hs : s = s2) (hl : l = l2) :
    create_story_prompt p s l = create_story_prompt p2 s2 l2
    ∧ create_story_prompt p s l ≠ [] := by
  subst hp; subst hs; subst hl
  refine ⟨rfl, fun h => ?_⟩
  rw [create_story_prompt] at h
  exact absurd (List.append_eq_nil.mp h).2 (by decide)

/-- Witness for C8 at concrete inputs. -/
theorem create_story_prompt_deterministic_witness :
    create_story_prompt "a".data "b".data "c".data =
      create_story_prompt "a".data "b".data "c".data
    ∧ create_story_prompt "a".data "b".data "c".data ≠ [] :=
  create_story_prompt_deterministic_spec "a".data "b".data "c".data
    "a".data "b".data "c".data rfl rfl rfl

/-- Claim C9: the secondary variant's capitalization repair (modelled from
the spec) uppercases exactly the lowercase letter after each `.` plus
optional whitespace: `he ran fast. he jumped high.` becomes
`he ran fast. He jumped high.`, and the first character of any string is
left untouched by the pass. -/
theorem capitalizeAfterPeriod_spec :
    capitalizeAfterPeriod "he ran fast. he jumped high.".data =
      "he ran fast. He jumped high.".data
    ∧ ∀ l : List Char, (capitalizeAfterPeriod l).head? = l.head? := by
  refine ⟨by decide, fun l => ?_⟩
  cases l with
  | nil => rfl
  | cons c rest =>
    by_cases hc : c = '.'
    · subst hc
      simp [capitalizeAfterPeriod, capAfterDotAux]
    · simp [capitalizeAfterPeriod, capAfterDotAux, hc]

/-- Claim C3: the prompt contains the premise verbatim, the style
descriptor and the length hint; a style in the 8-entry table resolves to
its tabulated descriptor and a length in the 3-entry table to its word
count, while lookup failures fall back to `engaging` and `500 words`. -/
theorem create_story_prompt_contains_spec (premise style length d w : List Char) :
    (∃ a b, create_story_prompt premise style length = a ++ premise ++ b)
    ∧ (∃ a b, create_story_prompt premise style length = a ++ styleDescriptor style ++ b)
    ∧ (∃ a b, create_story_prompt premise style length = a ++ lengthHint length ++ b)
    ∧ ((style, d) ∈ style_instructions → styleDescriptor style = d)
    ∧ ((length, w) ∈ word_counts → lengthHint length = w)
    ∧ (List.lookup style style_instructions = none → styleDescriptor style = "engaging".data)
    ∧ (List.lookup length word_counts = none → lengthHint length = "500 words".data) := by
  refine ⟨⟨promptSegA, promptSegB ++ style ++ promptSegC ++ styleDescriptor style ++
      promptSegD ++ lengthHint length ++ promptSegE, ?_⟩,
    ⟨promptSegA ++ premise ++ promptSegB ++ style ++ promptSegC,
      promptSegD ++ lengthHint length ++ promptSegE, ?_⟩,
    ⟨promptSegA ++ premise ++ promptSegB ++ style ++ promptSegC ++
      styleDescriptor style ++ promptSegD, promptSegE, ?_⟩, ?_, ?_, ?_, ?_⟩
  · simp [create_story_prompt, List.append_assoc]
  · simp [create_story_prompt, List.append_assoc]
  · simp [create_story_prompt, List.append_assoc]
  · intro h
    rw [styleDescriptor, lookup_of_mem_nodupKeys style_instructions (by decide) style d h]
    rfl
  · intro h
    rw [lengthHint, lookup_of_mem_nodupKeys word_counts (by decide) length w h]
    rfl
  · intro h
    simp [styleDescriptor, h]
  · intro h
    simp [lengthHint, h]

/-- Witness for C3: table hits for `fantasy`/`short` and the documented
fallbacks for unknown style and length. -/
theorem create_story_prompt_contains_witness :
    styleDescriptor "fantasy".data =
      "with magic, mythical creatures, enchanted worlds, and supernatural elements".data
    ∧ lengthHint "short".data = "400-600 words".data
    ∧ styleDescriptor "western".data = "engaging".data
    ∧ lengthHint "epic".data = "500 words".data := by
  refine ⟨?_, ?_, ?_, ?_⟩
  · exact (create_story_prompt_contains_spec "p".data "fantasy".data "short".data
      "with magic, mythical creatures, enchanted worlds, and supernatural elements".data
      "400-600 words".data).2.2.2.1 (by decide)
  · exact (create_story_prompt_contains_spec "p".data "fantasy".data "short".data
      "x".data "400-600 words".data).2.2.2.2.1 (by decide)
  · exact (create_story_prompt_contains_spec "p".data "western".data "epic".data
      [] []).2.2.2.2.2.1 (by decide)
  · exact (create_story_prompt_contains_spec "p".data "western".data "epic".data
      [] []).2.2.2.2.2.2 (by decide)

/-- The raw input of the C1 counterexample: a leading space hides the
preamble from the anchored first-pass pattern, and stripping then exposes
it to a second pass. -/
def c1raw : List Char :=
  ' ' :: (heresPat ++ " a story: ".data ++ List.replicate 120 'a')

/-- The Ok output of `clean_response` on `c1raw`. -/
def c1out : List Char :=
  heresPat ++ " a story: ".data ++ List.replicate 120 'a'

/-- Claim C1 is false as stated: `clean_response` succeeds on `c1raw` with
output `c1out` (which satisfies the length and repetition thresholds), yet
re-applying `clean_response` to `c1out` strips the now-leading preamble and
returns a different Ok output. -/
theorem clean_response_not_idem_cex :
    clean_response_outcome c1raw = .ok c1out
    ∧ clean_response_outcome c1out ≠ .ok c1out
    ∧ clean_response_outcome c1out = .ok (List.replicate 120 'a') :=
  ⟨by decide, by decide, by decide⟩

/-- The Ok story of the C6 counterexample: a cleaned story may itself begin
with the error marker. -/
def c6okStory : List Char := "Error: ".data ++ List.replicate 100 'a'

/-- Claim C6 is false as stated: a backend exception is surfaced as
`Error generating story: ...`, which does not begin with the `Error:`
marker the caller checks; and a successful sanitization can return a story
that itself begins with `Error:`, so the prefix does not separate error
from success. -/
theorem generate_story_marker_cex :
    (generate_story (fun _ => .raised "boom".data)
        "p".data "adventurous".data "short".data).take 6 ≠ "Error:".data
    ∧ clean_response_outcome c6okStory = .ok c6okStory
    ∧ c6okStory.take 6 = "Error:".data :=
  ⟨by decide, by decide, by decide⟩

/-- Claim C1 (amended): re-applying `clean_response` to one of its own Ok
outputs returns the same Ok output, provided the preamble and list/bullet
stripping steps find nothing to remove in that output (the newline
collapse, the trim, and the length and repetition checks are then shown to
pass unchanged on the second application). -/
theorem clean_response_idem_of_no_restrip (raw t : List Char)
    (h : clean_response_outcome raw = .ok t)
    (h1 : stripPreamble1 t = t) (h2 : stripPreamble2 t = t)
    (h3 : removeLines isNumberedLine t = t) (h4 : removeLines isBulletLine t = t) :
    clean_response_outcome t = .ok t := by
  obtain ⟨ht, _, hlen, hrep⟩ := cleanOutcome_ok_inv raw t h
  have hnt : hasTripleNl t = false := by
    rw [ht]
    exact pyStrip_noTriple _ (collapseNewlines_noTriple _)
  have hcol : collapseNewlines t = t := collapseNewlines_eq_of_noTriple t hnt
  have hstrip : pyStrip t = t := by
    rw [ht]
    simp only [cleanPipeline]
    exact pyStrip_idem _
  have hpipe : cleanPipeline t = t := by
    rw [cleanPipeline, h1, h2, h3, h4, hcol, hstrip]
  have hlen' : ¬ t.length < 100 := by
    rw [ht]
    exact hlen
  have h0 : t.isEmpty = false := by
    cases t with
    | nil => exact absurd (by decide : ([] : List Char).length < 100) hlen'
    | cons c r => exact List.isEmpty_cons
  rw [← ht] at hrep
  have hok := cleanOutcome_ok_intro t h0 (by rw [hpipe]; exact hlen')
    (by rw [hpipe]; exact hrep)
  rw [hpipe] at hok
  exact hok

/-- Witness for the amended C1: a leading-space input whose Ok output has
nothing left to strip. -/
theorem clean_response_idem_witness :
    clean_response_outcome (List.replicate 120 'b') = .ok (List.replicate 120 'b') :=
  clean_response_idem_of_no_restrip (' ' :: List.replicate 120 'b')
    (List.replicate 120 'b') (by decide) (by decide) (by decide) (by decide) (by decide)

/-- Claim C2: on any input passing the emptiness and 100-character checks
whose cleaned text splits into more than 10 dot-sentences — if the unique
ratio of case-folded, trimmed sentences is below 0.7 the input is rejected
as repetitive, while pairwise-distinct normalized sentences always clear
the threshold and yield the cleaned text as Ok. -/
theorem clean_response_repetition_spec (raw : List Char)
    (h0 : raw.isEmpty = false)
    (hlen : ¬ (cleanPipeline raw).length < 100)
    (hn : 10 < (splitOnDot (cleanPipeline raw)).length) :
    (uniqueCount (splitOnDot (cleanPipeline raw)) * 10 <
        (splitOnDot (cleanPipeline raw)).length * 7 →
      clean_response_outcome raw = .errRepetitive)
    ∧ (((splitOnDot (cleanPipeline raw)).map normalizeSentence).Nodup →
      clean_response_outcome raw = .ok (cleanPipeline raw)) := by
  constructor
  · intro hu
    unfold clean_response_outcome
    rw [if_neg (by simp [h0]), if_neg hlen, if_pos hn, if_pos hu]
  · intro hnd
    apply cleanOutcome_ok_intro raw h0 hlen
    intro _
    have hge := uniqueCount_ge_of_nodup (splitOnDot (cleanPipeline raw)) hnd
    omega

/-- The 11-distinct-sentence input witnessing C2. -/
def c2raw : List Char :=
  ("alpha bird one. alpha bird two. alpha bird three. alpha bird four. " ++
   "alpha bird five. alpha bird six. alpha bird seven. alpha bird eight. " ++
   "alpha bird nine. alpha bird ten. alpha bird eleven.").data

/-- Witness for C2: the 11-distinct-sentence input is returned Ok. -/
theorem clean_response_repetition_witness :
    clean_response_outcome c2raw = .ok (cleanPipeline c2raw) :=
  (clean_response_repetition_spec c2raw (by decide) (by decide) (by decide)).2 (by decide)

/-- Claim C6 (amended): every sanitization rejection and the no-response
backend failure are surfaced by `generate_story` as plain strings beginning
with `Error:`; a backend exception is surfaced as a plain string beginning
with `Error generating story: ` (which lacks the `Error:` marker); nothing
is raised to the caller, and a usable backend text is returned as its
cleaned form, which is not guaranteed to avoid the `Error:` prefix. -/
theorem generate_story_marker_spec (be : List Char → BackendResult)
    (premise style length msg t : List Char) :
    ((∀ u, clean_response_outcome t ≠ .ok u) →
      (clean_response t).take 6 = "Error:".data)
    ∧ (be (create_story_prompt premise style length) = .response none →
      (generate_story be premise style length).take 6 = "Error:".data)
    ∧ (be (create_story_prompt premise style length) = .raised msg →
      (generate_story be premise style length).take 24 =
        "Error generating story: ".data)
    ∧ (be (create_story_prompt premise style length) = .response (some t) →
      t ≠ [] → generate_story be premise style length = clean_response t) := by
  refine ⟨?_, ?_, ?_, ?_⟩
  · intro h
    rw [clean_response]
    cases ho : clean_response_outcome t with
    | errEmpty => decide
    | errTooShort => decide
    | errRepetitive => decide
    | ok u => exact absurd ho (h u)
  · intro hbe
    unfold generate_story
    rw [hbe]
    decide
  · intro hbe
    unfold generate_story
    rw [hbe]
    show ("Error generating story: ".data ++ msg).take 24 =
      "Error generating story: ".data
    rw [show (24 : Nat) = ("Error generating story: ".data).length from by decide]
    exact List.take_left _ _
  · intro hbe hne
    unfold generate_story
    rw [hbe]
    show (if t.isEmpty = true then "Error: No response from AI. Please try again.".data
      else clean_response t) = clean_response t
    rw [if_neg (by simpa [List.isEmpty_iff] using hne)]

/-- Witness for the amended C6 at concrete backends and inputs. -/
theorem generate_story_marker_witness :
    (generate_story (fun _ => BackendResult.response none)
        "p".data "s".data "l".data).take 6 = "Error:".data
    ∧ (generate_story (fun _ => BackendResult.raised "x".data)
        "p".data "s".data "l".data).take 24 = "Error generating story: ".data
    ∧ (clean_response "hi".data).take 6 = "Error:".data := by
  refine ⟨?_, ?_, ?_⟩
  · exact (generate_story_marker_spec (fun _ => BackendResult.response none)
      "p".data "s".data "l".data [] []).2.1 rfl
  · exact (generate_story_marker_spec (fun _ => BackendResult.raised "x".data)
      "p".data "s".data "l".data "x".data []).2.2.1 rfl
  · refine (generate_story_marker_spec (fun _ => BackendResult.response none)
      "p".data "s".data "l".data [] "hi".data).1 ?_
    intro u hu
    rw [show clean_response_outcome "hi".data = .errTooShort from by decide] at hu
    exact CleanOutcome.noConfusion hu

/-- Claim C7: every Ok output of `clean_response` contains no run of three
or more consecutive newlines, and neither starts nor ends with a
whitespace character. -/
theorem clean_response_ok_shape_spec (raw t : List Char)
    (h : clean_response_outcome raw = .ok t) :
    hasTripleNl t = false
    ∧ (∀ c, t.head? = some c → pyIsSpace c = false)
    ∧ (∀ c, t.getLast? = some c → pyIsSpace c = false) := by
  obtain ⟨ht, -, -, -⟩ := cleanOutcome_ok_inv raw t h
  subst ht
  refine ⟨pyStrip_noTriple _ (collapseNewlines_noTriple _),
    fun c hc => pyStrip_head _ c hc, fun c hc => pyStrip_getLast _ c hc⟩

/-- Witness for C7: the Ok output on a concrete input has no triple
newline. -/
theorem clean_response_ok_shape_witness :
    hasTripleNl (List.replicate 120 'b') = false :=
  (clean_response_ok_shape_spec (List.replicate 120 'b')
    (List.replicate 120 'b') (by decide)).1

/-- Claim C10: a non-empty input consisting only of whitespace passes the
raw truthiness check (so it is not rejected as empty) and is then rejected
as too short, its cleaned form being the empty string. -/
theorem clean_response_whitespace_only_spec (raw : List Char)
    (h0 : raw ≠ []) (hsp : ∀ c ∈ raw, pyIsSpace c = true) :
    clean_response_outcome raw = .errTooShort := by
  have hpipe : cleanPipeline raw = [] := by
    rw [cleanPipeline, stripPreamble1_eq_of_space raw hsp, stripPreamble2_eq_of_space raw hsp,
      removeLines_id_of_space isNumberedLine isNumberedLine_false_of_space raw hsp,
      removeLines_id_of_space isBulletLine isBulletLine_false_of_space raw hsp]
    exact pyStrip_nil_of_space _ (collapseNlAux_space raw 0 hsp)
  have h0' : raw.isEmpty = false := by
    cases raw with
    | nil => exact absurd rfl h0
    | cons c r => exact List.isEmpty_cons
  unfold clean_response_outcome
  rw [if_neg (by simp [h0']), if_pos (by rw [hpipe]; decide)]

/-- Witness for C10: a space, newline and tab input is rejected as too
short, not as empty. -/
theorem clean_response_whitespace_only_witness :
    clean_response_outcome [' ', '\n', '\t'] = .errTooShort :=
  clean_response_whitespace_only_spec [' ', '\n', '\t'] (by decide) (by decide)
